import Mathlib

/-!
Verification development for the solar-challenge repository.

We shallowly embed the data-wrangling pipeline of `src/solar_analysis.py`
(class `SolarEDA`) and the loader/aggregator of `app/utils.py`.

Modelling conventions:
* a pandas cell is `Option ℚ` (`none` models NaN / missing);
* a column is a list of cells; a table is a list of named numeric columns
  plus an optional `Timestamp` column (kept separate, because
  `select_dtypes(include=np.number)` excludes it);
* timestamp cells are kept in already-parsed form (`Option Ts`), so
  `pd.to_datetime(..., errors='coerce')` is the identity on this
  representation and `dropna(subset=['Timestamp'])` drops `none` rows;
* `Series.quantile` / `Series.median` use pandas' default linear
  interpolation, reproduced exactly over ℚ;
* scipy's test `|zscore| > 3` is expressed by the equivalent square
  comparison `(x - μ)² > 9·σ²` with population variance (ddof = 0,
  scipy's default), which avoids irrational square roots while agreeing
  with the source (for σ = 0 scipy yields NaN z-scores and `NaN > 3`
  is false, matching the `0 > 0` comparison here).
-/

namespace Solar

/-- A pandas cell: `none` models NaN. -/
abbrev Cell := Option ℚ

/-- A pandas column of numeric cells. -/
abbrev Col := List Cell

/-- The non-missing entries of a column (`Series.dropna`). -/
def nonMissing : Col → List ℚ
  | [] => []
  | none :: c => nonMissing c
  | some v :: c => v :: nonMissing c

/-- Ascending sort, as pandas sorts before quantile interpolation. -/
def sortedAsc (xs : List ℚ) : List ℚ := List.insertionSort (· ≤ ·) xs

/-- List indexing with a default value (out-of-range positions are never
reached on the inputs the pipeline produces). -/
def nthD : List ℚ → ℕ → ℚ → ℚ
  | [], _, d => d
  | x :: _, 0, _ => x
  | _ :: xs, i + 1, d => nthD xs i d

/-- Linear-interpolation quantile of a sorted list, as in
`numpy.percentile` / `Series.quantile` (default interpolation):
position `h = q·(n-1)`, value `s[⌊h⌋] + (h - ⌊h⌋)·(s[⌊h⌋+1] - s[⌊h⌋])`. -/
def quantileSorted (q : ℚ) (s : List ℚ) : ℚ :=
  let h : ℚ := q * ((s.length : ℚ) - 1)
  let i : ℤ := ⌊h⌋
  let lo : ℚ := nthD s i.toNat 0
  let hi : ℚ := nthD s (i.toNat + 1) lo
  lo + (h - (i : ℚ)) * (hi - lo)

/-- Model of `Series.quantile q` over the non-missing values; NaN
(`none`) on an empty input, as pandas returns NaN there. -/
def quantile? : ℚ → List ℚ → Option ℚ
  | _, [] => none
  | q, x :: xs => some (quantileSorted q (sortedAsc (x :: xs)))

/-- Model of `Series.median` (pandas' median is the linearly
interpolated 0.5 quantile of the non-missing values). -/
def median? (xs : List ℚ) : Option ℚ := quantile? (1/2) xs

/-- Mean of a list (`Series.mean` is applied to non-missing entries);
NaN on an empty input. -/
def meanQ? : List ℚ → Option ℚ
  | [] => none
  | x :: xs => some ((x :: xs).sum / ((x :: xs).length : ℚ))

/-- Model of `df_clean[col].fillna(df_clean[col].median())` (line 95 of
`solar_analysis.py`): when the median is NaN (all values missing)
`fillna` changes nothing. -/
def imputeCol (c : Col) : Col :=
  match median? (nonMissing c) with
  | none => c
  | some m => c.map (fun x => some (x.getD m))

/-- Model of `np.clip(v, lo, hi) = np.minimum(hi, np.maximum(v, lo))`. -/
def clipVal (lo hi v : ℚ) : ℚ := min (max v lo) hi

/-- Model of `np.clip(col, col.quantile(0.01), col.quantile(0.99))`
(line 109): quantiles skip NaN; NaN entries stay NaN through `np.clip`.
When the column has no non-missing value both quantiles are NaN and
every entry is already NaN, so the column is unchanged. -/
def clipCol (c : Col) : Col :=
  match quantile? (1/100) (nonMissing c), quantile? (99/100) (nonMissing c) with
  | some lo, some hi => c.map (Option.map (clipVal lo hi))
  | _, _ => c

/-- Model of `(np.abs(stats.zscore(col.dropna())) > 3).sum()`
(lines 106-107), via the square comparison described in the header. -/
def zOutlierCount : List ℚ → ℕ
  | [] => 0
  | x :: xs =>
    let l := x :: xs
    let μ : ℚ := l.sum / (l.length : ℚ)
    let σ2 : ℚ := ((l.map (fun y => (y - μ) ^ 2)).sum) / (l.length : ℚ)
    l.countP (fun y => decide ((y - μ) ^ 2 > 9 * σ2))

/-- A parsed timestamp: the derived month (1-12) and hour (0-23) labels
used by `monthly_hourly_analysis`, plus a key making distinct sampling
instants distinct values. -/
structure Ts where
  month : ℕ
  hour : ℕ
  key : ℕ
deriving DecidableEq

/-- A measurement table: named numeric columns plus an optional
`Timestamp` column. All columns of a well-formed table have one entry
per row. -/
structure Table where
  cols : List (String × Col)
  ts : Option (List (Option Ts))
deriving DecidableEq

/-- Association-list lookup by column name (`df[name]`). -/
def alookup {α : Type} : List (String × α) → String → Option α
  | [], _ => none
  | p :: ps, n => if p.1 = n then some p.2 else alookup ps n

/-- The named numeric column of a table, when present. -/
def Table.col (t : Table) (n : String) : Option Col := alookup t.cols n

/-- Presence test for a numeric column (`name in df.columns`). -/
def Table.hasCol (t : Table) (n : String) : Bool := (t.col n).isSome

/-- Replace every numeric column by a function of its name and cells
(the timestamp column is not numeric and is untouched). -/
def mapCols (f : String → Col → Col) (t : Table) : Table :=
  { t with cols := t.cols.map (fun p => (p.1, f p.1 p.2)) }

/-- The missing-value imputation loop (lines 94-95): every numeric
column is `fillna`-ed with its own median. -/
def imputeTable (t : Table) : Table := mapCols (fun _ c => imputeCol c) t

/-- Boolean-mask row selection: keep the rows whose mask entry is true. -/
def applyMask {α : Type} : List Bool → List α → List α
  | true :: bs, x :: xs => x :: applyMask bs xs
  | false :: bs, _ :: xs => applyMask bs xs
  | _, _ => []

/-- The timestamp handling (lines 98-100): `to_datetime(..., 'coerce')`
is the identity on the parsed representation, and
`dropna(subset=['Timestamp'])` drops the rows whose timestamp is NaT
from every column. Tables without a `Timestamp` column are untouched. -/
def tsTable (t : Table) : Table :=
  match t.ts with
  | none => t
  | some tc =>
    let mask := tc.map Option.isSome
    { cols := t.cols.map (fun p => (p.1, applyMask mask p.2)),
      ts := some (applyMask mask tc) }

/-- The fixed clipping list of line 103. -/
def outlierCols : List String := ["GHI", "DNI", "DHI", "ModA", "ModB", "WS", "WSgust"]

/-- The outlier-clipping loop (lines 104-109): each column of
`outlierCols` that is present is clipped to its own [P1, P99]. -/
def clipTable (t : Table) : Table :=
  mapCols (fun n c => if n ∈ outlierCols then clipCol c else c) t

/-- The whole `clean_data` table transformation (lines 91-111):
imputation, then timestamp handling, then clipping. -/
def cleanTable (t : Table) : Table := clipTable (tsTable (imputeTable t))

/-- The diagnostic outlier counts printed by the clipping loop: for each
present column of `outlierCols`, the `|z| > 3` count of its values at
that point of the pipeline (after imputation and timestamp handling;
each column is counted before it is clipped). -/
def zOutlierReport (t : Table) : List (String × ℕ) :=
  outlierCols.filterMap (fun n =>
    ((tsTable (imputeTable t)).col n).map (fun c => (n, zOutlierCount (nonMissing c))))

/-! ## Loader and cross-country aggregator (`app/utils.py`) -/

/-- The country-to-filename map of `load_country_data` (lines 24-28). -/
def file_map : List (String × String) :=
  [("Benin", "benin_clean.csv"),
   ("Sierra Leone", "sierraleone_clean.csv"),
   ("Togo", "togo_clean.csv")]

/-- A table with no columns and no rows (`pd.DataFrame()`). -/
def emptyTable : Table := ⟨[], none⟩

/-- Number of rows of a table. -/
def Table.nrows (t : Table) : ℕ :=
  match t.cols with
  | p :: _ => p.2.length
  | [] => (t.ts.map List.length).getD 0

/-- Number of columns of a table (the timestamp column counts). -/
def Table.ncols (t : Table) : ℕ :=
  t.cols.length + (if t.ts.isSome then 1 else 0)

/-- Model of `df.empty`: some axis has length zero. -/
def Table.isEmpty (t : Table) : Bool := t.nrows == 0 || t.ncols == 0

/-- Model of `load_country_data` (lines 8-33 of `app/utils.py`).
`fs` maps a filename to the table parsed from it, `none` when the file
does not exist; an uploaded file is passed as an already-parsed table.
`file_map[country]` on an unknown key raises `KeyError`, modelled by
`Except.error`. -/
def load_country_data (country : String) (fs : String → Option Table)
    (uploaded : Option Table) : Except String Table :=
  match uploaded with
  | some t => .ok t
  | none =>
    match alookup file_map country with
    | none => .error ("KeyError: " ++ country)
    | some fname =>
      match fs fname with
      | some t => .ok t
      | none => .ok emptyTable

/-- The filename the loader resolves for a known country (the three
countries of `file_map` all have one). -/
def fileOf (c : String) : String := (alookup file_map c).getD ""

/-- One row of the cross-country comparison table: the three mean
irradiance values plus the country label. -/
structure CountryRow where
  ghi : Option ℚ
  dni : Option ℚ
  dhi : Option ℚ
  country : String
deriving DecidableEq

/-- Mean of a named column's non-missing values (`df[n].mean()`). -/
def colMean? (t : Table) (n : String) : Option ℚ :=
  match t.col n with
  | none => none
  | some c => meanQ? (nonMissing c)

/-- Model of `df[["GHI", "DNI", "DHI"]].mean()` followed by
`summary["country"] = c` (lines 71-72): selecting a missing column
raises `KeyError`. -/
def metricRow (c : String) (t : Table) : Except String CountryRow :=
  if t.hasCol "GHI" && t.hasCol "DNI" && t.hasCol "DHI" then
    .ok ⟨colMean? t "GHI", colMean? t "DNI", colMean? t "DHI", c⟩
  else .error "KeyError: columns not found"

/-- The fixed country list of `get_country_metrics` (line 61). -/
def countriesL : List String := ["Benin", "Sierra Leone", "Togo"]

/-- The loop body of `get_country_metrics` (lines 67-73), desugared to
explicit recursion with an accumulator: empty tables are skipped,
exceptions propagate. -/
def metricsAux (fs : String → Option Table) (uploads : String → Option Table) :
    List String → List CountryRow → Except String (List CountryRow)
  | [], acc => .ok acc
  | c :: rest, acc =>
    match load_country_data c fs (uploads c) with
    | .error e => .error e
    | .ok df =>
      if df.isEmpty then metricsAux fs uploads rest acc
      else
        match metricRow c df with
        | .error e => .error e
        | .ok r => metricsAux fs uploads rest (acc ++ [r])

/-- Model of `get_country_metrics` (lines 50-78): one `CountryRow` per
country with data; an empty list models the structurally valid empty
result of line 78. -/
def get_country_metrics (fs : String → Option Table)
    (uploads : String → Option Table) : Except String (List CountryRow) :=
  metricsAux fs uploads countriesL []

/-! ## Descriptive analytics (`SolarEDA` methods used by the claims) -/

/-- Model of column assignment `df[n] = c`: replace the column in place
if the name exists, otherwise append it. -/
def setCol (t : Table) (n : String) (c : Col) : Table :=
  { t with cols :=
      if (alookup t.cols n).isSome then
        t.cols.map (fun p => if p.1 = n then (n, c) else p)
      else t.cols ++ [(n, c)] }

/-- The derived month labels `df['Timestamp'].dt.month_name()`
(months are represented by their calendar number 1-12; NaT gives NaN). -/
def monthCol (tc : List (Option Ts)) : Col :=
  tc.map (fun o => o.map (fun τ => (τ.month : ℚ)))

/-- The derived hour labels `df['Timestamp'].dt.hour` (NaT gives NaN). -/
def hourCol (tc : List (Option Ts)) : Col :=
  tc.map (fun o => o.map (fun τ => (τ.hour : ℚ)))

/-- Lines 223-224: add the derived `Month` and `Hour` columns to the
cleaned table (a no-op when there is no timestamp column, but that
branch is only reached after the `Timestamp` presence guard). -/
def addMonthHour (t : Table) : Table :=
  match t.ts with
  | none => t
  | some tc => setCol (setCol t "Month" (monthCol tc)) "Hour" (hourCol tc)

/-- Mean of the entries of `c` in the rows where the grouping column
equals `k` (`df.groupby(key)[col].mean()` for one group): NaN keys form
no group, NaN values are skipped by the mean. -/
def groupMean (keys : Col) (c : Col) (k : ℚ) : Option ℚ :=
  meanQ? (nonMissing ((keys.zip c).filterMap
    (fun p => if p.1 = some k then some p.2 else none)))

/-- The four columns selected by the monthly/hourly aggregation
(lines 227 and 236). -/
def reqCols4 : List String := ["GHI", "DNI", "DHI", "Tamb"]

/-- Line 227-229: means of the four key columns grouped by month, then
`reindex`-ed into calendar order January-December (12 rows, absent
months all-NaN). -/
def monthlyTable (t : Table) (tc : List (Option Ts)) : List (List (Option ℚ)) :=
  (List.range 12).map (fun m =>
    reqCols4.map (fun n => groupMean (monthCol tc) ((t.col n).getD []) ((m : ℚ) + 1)))

/-- Distinct values in ascending order, as a `groupby` orders its
groups. -/
def distinctSorted (xs : List ℚ) : List ℚ := (sortedAsc xs).dedup

/-- Line 236: means of the four key columns grouped by hour of day
(one row per hour present in the data, ascending). -/
def hourlyTable (t : Table) (tc : List (Option Ts)) : List (List (Option ℚ)) :=
  (distinctSorted (nonMissing (hourCol tc))).map (fun h =>
    reqCols4.map (fun n => groupMean (hourCol tc) ((t.col n).getD []) h))

/-- Model of `monthly_hourly_analysis` (lines 215-241) on the cleaned
table: `.ok none` models the guarded skip (printed message) when there
is no `Timestamp` column; once past that guard, the column selection
`groupby('Month')[['GHI','DNI','DHI','Tamb']]` raises `KeyError` when
one of the four columns is absent. -/
def monthly_hourly_analysis (t : Table) :
    Except String (Option (List (List (Option ℚ)) × List (List (Option ℚ)))) :=
  match t.ts with
  | none => .ok none
  | some tc =>
    let t' := addMonthHour t
    if reqCols4.all (fun n => t'.hasCol n) then
      .ok (some (monthlyTable t' tc, hourlyTable t' tc))
    else .error "KeyError: columns not found"

/-- Model of `cleaning_impact_analysis` (lines 131-143): skipped with a
printed diagnostic unless `Cleaning`, `ModA` and `ModB` are all
present; otherwise the per-flag means of `ModA` and `ModB`. Output:
(printed messages, result if not skipped). -/
def cleaning_impact_analysis (t : Table) :
    List String × Option (List (ℚ × Option ℚ × Option ℚ)) :=
  if ["Cleaning", "ModA", "ModB"].all (fun n => t.hasCol n) then
    let keys := (t.col "Cleaning").getD []
    ([], some ((distinctSorted (nonMissing keys)).map (fun k =>
      (k, groupMean keys ((t.col "ModA").getD []) k,
          groupMean keys ((t.col "ModB").getD []) k))))
  else (["Cleaning, ModA, or ModB columns missing for impact analysis."], none)

/-! ## Wind rose (`distribution_analysis`, lines 176-189) -/

/-- Model of `np.arange(0, 360, 30)`: twelve edges, 0 to 330. -/
def windRoseEdges : List ℚ := [0, 30, 60, 90, 120, 150, 180, 210, 240, 270, 300, 330]

/-- The number of direction buckets `pd.cut` builds from those edges:
one fewer than the number of edges. -/
def windBinCount : ℕ := windRoseEdges.length - 1

/-- Model of `pd.cut(wd, bins=windRoseEdges, include_lowest=True)` for a
single value: bucket `i` is the interval (edges[i], edges[i+1]], with
the lowest edge included in bucket 0; values outside every bucket get
no bucket (pandas: NaN category). -/
def windBinOf (v : ℚ) : Option ℕ :=
  (List.range windBinCount).find? (fun i =>
    decide (v ≤ nthD windRoseEdges (i + 1) 0) &&
    (decide (nthD windRoseEdges i 0 < v) || (i == 0 && decide (0 ≤ v))))

/-- Model of lines 177-182: drop rows where `WS` or `WD` is NaN, bucket
the directions, and take the mean wind speed of each bucket (the
grouping is over the categorical bins, so every bucket appears, empty
ones with NaN mean); `none` when `WS` or `WD` is absent (guard of
line 176). -/
def windRoseMeans (t : Table) : Option (List (Option ℚ)) :=
  if t.hasCol "WS" && t.hasCol "WD" then
    let ws := (t.col "WS").getD []
    let wd := (t.col "WD").getD []
    let pairs := (wd.zip ws).filterMap (fun p =>
      match p.1, p.2 with
      | some d, some s => some (d, s)
      | _, _ => none)
    some ((List.range windBinCount).map (fun i =>
      meanQ? ((pairs.filter (fun p => windBinOf p.1 == some i)).map (fun p => p.2))))
  else none

/-! ## The remaining guarded sub-analyses of the analytics stage -/

/-- Model of `time_series_analysis` (lines 113-129): with no `Timestamp`
column it prints a diagnostic and returns; otherwise it plots each of
GHI, DNI, DHI, Tamb that is present (and nothing for the absent ones,
silently). Output: (printed messages, plotted columns). -/
def time_series_analysis (t : Table) : List String × List String :=
  match t.ts with
  | none => (["No Timestamp column for time series analysis."], [])
  | some _ => ([], ["GHI", "DNI", "DHI", "Tamb"].filter (fun n => t.hasCol n))

/-- The candidate heatmap columns of `correlation_analysis` (line 149). -/
def corrCandidateCols : List String :=
  ["GHI", "DNI", "DHI", "TModA", "TModB", "Tamb", "RH", "WS"]

/-- The fixed scatter pairs of `correlation_analysis` (line 157). -/
def scatterPairCols : List (String × String) :=
  [("WS", "GHI"), ("WSgust", "GHI"), ("RH", "Tamb"), ("RH", "GHI")]

/-- Model of `correlation_analysis` (lines 145-162): the heatmap is
drawn over whichever candidate columns are present and silently not
drawn when none is (the method prints nothing); each scatter pair is
drawn exactly when both of its columns are present. Output: (heatmap
column selection when drawn, drawn scatter pairs). -/
def correlation_analysis (t : Table) : Option (List String) × List (String × String) :=
  let corr_cols := corrCandidateCols.filter (fun n => t.hasCol n)
  (if corr_cols.isEmpty then none else some corr_cols,
   scatterPairCols.filter (fun p => t.hasCol p.1 && t.hasCol p.2))

/-- Model of the histogram half of `distribution_analysis`
(lines 168-173) together with its wind rose (lines 176-189):
histograms for those of GHI, WS that are present, the wind-rose means
when WS and WD are present; absent columns are skipped silently. -/
def distribution_analysis (t : Table) : List String × Option (List (Option ℚ)) :=
  (["GHI", "WS"].filter (fun n => t.hasCol n), windRoseMeans t)

/-- Model of `temperature_analysis` (lines 191-199): silently skipped
unless RH, Tamb and GHI are all present; otherwise the plotted
(RH, Tamb, GHI) rows. -/
def temperature_analysis (t : Table) : Option (List (Cell × Cell × Cell)) :=
  if ["RH", "Tamb", "GHI"].all (fun n => t.hasCol n) then
    some ((((t.col "RH").getD []).zip
        (((t.col "Tamb").getD []).zip ((t.col "GHI").getD []))).map
      (fun p => (p.1, p.2.1, p.2.2)))
  else none

/-- Model of `bubble_chart` (lines 201-213): silently skipped unless
GHI, Tamb, RH and BP are all present; otherwise the plotted
(GHI, Tamb, RH, BP) rows. -/
def bubble_chart (t : Table) : Option (List (Cell × Cell × Cell × Cell)) :=
  if ["GHI", "Tamb", "RH", "BP"].all (fun n => t.hasCol n) then
    some ((((t.col "GHI").getD []).zip
        (((t.col "Tamb").getD []).zip
          (((t.col "RH").getD []).zip ((t.col "BP").getD [])))).map
      (fun p => (p.1, p.2.1, p.2.2.1, p.2.2.2)))
  else none

/-! ## The stateful `SolarEDA` object -/

/-- The mutable state of a `SolarEDA` instance: the raw table `df` and
the cleaned table `df_clean` (each `none` until assigned). -/
structure EDAState where
  df : Option Table
  df_clean : Option Table
deriving DecidableEq

/-- Model of `clean_data` as a state transformer (lines 84-111):
`self.df_clean = self.df.copy()` followed by the in-place cleaning of
`df_clean`; the raw `df` attribute is not assigned. -/
def clean_data (s : EDAState) : EDAState :=
  { s with df_clean := s.df.map cleanTable }

/-- The state effect of `monthly_hourly_analysis` (lines 219-224): when
`df_clean` has a `Timestamp` column, the derived `Month` and `Hour`
columns are assigned into `df_clean`; nothing else is assigned. -/
def monthly_hourly_state (s : EDAState) : EDAState :=
  match s.df_clean with
  | none => s
  | some t =>
    match t.ts with
    | none => s
    | some _ => { s with df_clean := some (addMonthHour t) }

/-- A column is all-present or all-missing. Every column produced by the
imputation step has this shape, and the later pipeline stages preserve
it; it characterises when `fillna` can change nothing further. -/
def SomeOrNone (c : Col) : Prop :=
  (∀ x ∈ c, x.isSome = true) ∨ (∀ x ∈ c, x = none)

/-! ## Concrete fixtures used by witnesses and counterexamples -/

/-- The raw table of the spec's worked example: GHI = [100, 100, 100,
100, 10000], no timestamp column. -/
def tSpike : Table := ⟨[("GHI", [some 100, some 100, some 100, some 100, some 10000])], none⟩

/-- A five-row table with one numeric clipped column and no missing
values. -/
def tRamp : Table := ⟨[("GHI", [some 0, some 100, some 200, some 300, some 400])], none⟩

/-- A table whose only numeric column is entirely missing. -/
def tAllMissing : Table := ⟨[("GHI", [none, none])], none⟩

/-- A table with a missing GHI value and two unparseable timestamps. -/
def tDropClip : Table :=
  ⟨[("GHI", [some 0, some 0, none, some 10, some 10])],
   some [some ⟨1, 0, 0⟩, some ⟨1, 0, 1⟩, some ⟨1, 0, 2⟩, none, none]⟩

/-- A one-row cleaned table with the three irradiance columns. -/
def tBeninW : Table := ⟨[("GHI", [some 1]), ("DNI", [some 2]), ("DHI", [some 3])], none⟩

/-- Another one-row cleaned table with the three irradiance columns. -/
def tTogoW : Table := ⟨[("GHI", [some 4]), ("DNI", [some 5]), ("DHI", [some 6])], none⟩

/-- A table with no Timestamp column. -/
def tMH1 : Table := ⟨[("GHI", [some 1])], none⟩

/-- A one-row table with a Timestamp column and all four key columns. -/
def tMH2 : Table :=
  ⟨[("GHI", [some 1]), ("DNI", [some 1]), ("DHI", [some 1]), ("Tamb", [some 1])],
   some [some ⟨1, 0, 0⟩]⟩

/-- A one-row table with a Timestamp column but no Tamb (nor DNI, DHI)
column. -/
def tMH3 : Table := ⟨[("GHI", [some 1])], some [some ⟨1, 0, 0⟩]⟩

/-- A two-row table with wind speed and wind direction columns, one
direction inside (330, 360]. -/
def tWind : Table := ⟨[("WS", [some 1, some 2]), ("WD", [some 10, some 350])], none⟩

/-- A state holding a loaded raw table. -/
def sRaw : EDAState := ⟨some tMH2, none⟩

/-! ## Sanity checks of the numeric semantics against pandas/numpy -/

example : quantile? (1/100) [0, 100, 200, 300, 400] = some 4 := by
  norm_num [quantile?, quantileSorted, sortedAsc, List.insertionSort, List.orderedInsert, nthD]

example : quantile? (99/100) [100, 100, 100, 100, 10000] = some 9604 := by
  norm_num [quantile?, quantileSorted, sortedAsc, List.insertionSort, List.orderedInsert, nthD]

example : median? [0, 0, 10, 10] = some 5 := by
  norm_num [median?, quantile?, quantileSorted, sortedAsc, List.insertionSort,
    List.orderedInsert, nthD]

example : zOutlierCount [100, 100, 100, 100, 10000] = 0 := by
  norm_num [zOutlierCount, List.countP, List.countP.go]

example : imputeCol [some 1, none, some 3] = [some 1, some 2, some 3] := by
  norm_num [imputeCol, median?, quantile?, quantileSorted, sortedAsc, List.insertionSort,
    List.orderedInsert, nthD, nonMissing]

/-! ## Helper lemmas about columns and masks -/

theorem nonMissing_eq_nil_iff (c : Col) : nonMissing c = [] ↔ ∀ x ∈ c, x = none := by
  induction c with
  | nil => simp [nonMissing]
  | cons x xs ih => cases x <;> simp [nonMissing, ih]

theorem quantile?_eq_none_iff (q : ℚ) (xs : List ℚ) : quantile? q xs = none ↔ xs = [] := by
  cases xs <;> simp [quantile?]

theorem imputeCol_length (c : Col) : (imputeCol c).length = c.length := by
  unfold imputeCol
  cases median? (nonMissing c) <;> simp

theorem clipCol_length (c : Col) : (clipCol c).length = c.length := by
  unfold clipCol
  cases quantile? (1/100) (nonMissing c) <;> cases quantile? (99/100) (nonMissing c) <;> simp

theorem map_pair_eq_self {α : Type} (f : String → α → α) :
    ∀ l : List (String × α), (∀ p ∈ l, f p.1 p.2 = p.2) →
      l.map (fun p => (p.1, f p.1 p.2)) = l := by
  intro l
  induction l with
  | nil => intro _; rfl
  | cons p ps ih =>
    intro h
    have hp := h p (List.mem_cons_self p ps)
    simp only [List.map_cons, hp, ih (fun q hq => h q (List.mem_cons_of_mem p hq))]

theorem mapCols_eq_self (f : String → Col → Col) (t : Table)
    (h : ∀ p ∈ t.cols, f p.1 p.2 = p.2) : mapCols f t = t := by
  cases t with
  | mk cols ts => simp [mapCols, map_pair_eq_self f cols h]

theorem someOrNone_imputeCol (c : Col) : SomeOrNone (imputeCol c) := by
  unfold imputeCol
  rcases hm : median? (nonMissing c) with _ | m
  · right
    exact (nonMissing_eq_nil_iff c).1 ((quantile?_eq_none_iff _ _).1 hm)
  · left
    intro x hx
    rcases List.mem_map.1 hx with ⟨y, _, rfl⟩
    rfl

theorem imputeCol_eq_self (c : Col) (h : SomeOrNone c) : imputeCol c = c := by
  rcases h with h | h
  · unfold imputeCol
    rcases hm : median? (nonMissing c) with _ | m
    · rfl
    · have : ∀ x ∈ c, some (x.getD m) = x := by
        intro x hx
        rcases x with _ | v
        · exact absurd (h none hx) (by simp)
        · rfl
      calc c.map (fun x => some (x.getD m)) = c.map id := List.map_congr_left this
        _ = c := List.map_id c
  · have hnm : nonMissing c = [] := (nonMissing_eq_nil_iff c).2 h
    unfold imputeCol
    rw [hnm]
    rfl

theorem clipCol_someOrNone (c : Col) (h : SomeOrNone c) : SomeOrNone (clipCol c) := by
  unfold clipCol
  rcases quantile? (1/100) (nonMissing c) with _ | lo <;>
    rcases quantile? (99/100) (nonMissing c) with _ | hi <;>
      try exact h
  rcases h with h | h
  · left
    intro x hx
    rcases List.mem_map.1 hx with ⟨y, hy, rfl⟩
    rcases y with _ | v
    · exact absurd (h none hy) (by simp)
    · rfl
  · right
    intro x hx
    rcases List.mem_map.1 hx with ⟨y, hy, rfl⟩
    rw [h y hy]
    rfl

theorem applyMask_nil_mask {α : Type} (c : List α) : applyMask [] c = [] := rfl

theorem applyMask_nil_list {α : Type} (m : List Bool) : applyMask m ([] : List α) = [] := by
  cases m with
  | nil => rfl
  | cons b bs => cases b <;> rfl

theorem applyMask_mem {α : Type} :
    ∀ (m : List Bool) (c : List α), ∀ x ∈ applyMask m c, x ∈ c := by
  intro m
  induction m with
  | nil => intro c x hx; rw [applyMask_nil_mask] at hx; cases hx
  | cons b bs ih =>
    intro c x hx
    rcases c with _ | ⟨y, ys⟩
    · rw [applyMask_nil_list] at hx; cases hx
    · rcases b with _ | _
      · exact List.mem_cons_of_mem y (ih ys x hx)
      · rcases List.mem_cons.1 hx with rfl | hx'
        · exact List.mem_cons_self x ys
        · exact List.mem_cons_of_mem y (ih ys x hx')

theorem applyMask_someOrNone (m : List Bool) (c : Col) (h : SomeOrNone c) :
    SomeOrNone (applyMask m c) := by
  rcases h with h | h
  · exact Or.inl fun x hx => h x (applyMask_mem m c x hx)
  · exact Or.inr fun x hx => h x (applyMask_mem m c x hx)

theorem applyMask_all_true {α : Type} :
    ∀ (m : List Bool) (c : List α), (∀ b ∈ m, b = true) → c.length ≤ m.length →
      applyMask m c = c := by
  intro m
  induction m with
  | nil =>
    intro c _ hlen
    rcases c with _ | ⟨y, ys⟩
    · rfl
    · simp at hlen
  | cons b bs ih =>
    intro c hm hlen
    have hb : b = true := hm b (List.mem_cons_self b bs)
    subst hb
    rcases c with _ | ⟨y, ys⟩
    · rfl
    · show y :: applyMask bs ys = y :: ys
      rw [ih ys (fun b hb => hm b (List.mem_cons_of_mem _ hb)) (by simpa using hlen)]

theorem applyMask_isSome_filter {β : Type} (tc : List (Option β)) :
    applyMask (tc.map Option.isSome) tc = tc.filter (fun x => x.isSome) := by
  induction tc with
  | nil => rfl
  | cons o tcs ih =>
    rcases o with _ | v
    · simpa [applyMask] using ih
    · simpa [applyMask] using ih

theorem applyMask_isSome_length {β γ : Type} :
    ∀ (tc : List (Option β)) (c : List γ),
      (applyMask (tc.map Option.isSome) c).length ≤
        (applyMask (tc.map Option.isSome) tc).length := by
  intro tc
  induction tc with
  | nil => intro c; simp [applyMask]
  | cons o tcs ih =>
    intro c
    rcases c with _ | ⟨y, ys⟩
    · simp [applyMask]
    · rcases o with _ | v
      · simpa [applyMask] using ih ys
      · simpa [applyMask] using ih ys

theorem alookup_map_pair {α β : Type} (g : String → α → β) (n : String) :
    ∀ l : List (String × α),
      alookup (l.map (fun p => (p.1, g p.1 p.2))) n = (alookup l n).map (g n) := by
  intro l
  induction l with
  | nil => rfl
  | cons p ps ih =>
    rcases p with ⟨k, v⟩
    by_cases h : k = n
    · subst h
      simp [alookup]
    · simp [alookup, h, ih]

/-! ## Fixed-point lemmas for re-cleaning a cleaned table -/

theorem tsTable_fix (u : Table) (tc₁ : List (Option Ts)) (h : u.ts = some tc₁)
    (h1 : ∀ x ∈ tc₁, x.isSome = true) (h2 : ∀ p ∈ u.cols, p.2.length ≤ tc₁.length) :
    tsTable u = u := by
  cases u with
  | mk cols ts =>
    simp only at h h2
    subst h
    have hm : ∀ b ∈ tc₁.map Option.isSome, b = true := by
      intro b hb
      rcases List.mem_map.1 hb with ⟨x, hx, rfl⟩
      exact h1 x hx
    have hlen : (tc₁.map Option.isSome).length = tc₁.length := List.length_map _ _
    simp only [tsTable]
    rw [Table.mk.injEq]
    refine ⟨?_, ?_⟩
    · exact map_pair_eq_self (fun _ c => applyMask (tc₁.map Option.isSome) c) cols
        fun p hp => applyMask_all_true _ _ hm (le_of_le_of_eq (h2 p hp) hlen.symm)
    · exact congrArg some (applyMask_all_true _ _ hm (le_of_eq hlen.symm))

theorem cleanTable_ts_none (t : Table) (hts : t.ts = none) :
    cleanTable t = clipTable (imputeTable t) ∧ (cleanTable t).ts = none := by
  have h1 : (imputeTable t).ts = none := hts
  have h2 : tsTable (imputeTable t) = imputeTable t := by
    simp [tsTable, h1]
  refine ⟨?_, ?_⟩
  · rw [cleanTable, h2]
  · rw [cleanTable, h2]
    exact hts

theorem cleanTable_ts_some (t : Table) (tc : List (Option Ts)) (hts : t.ts = some tc) :
    (cleanTable t).ts = some (applyMask (tc.map Option.isSome) tc) ∧
      ∀ p ∈ (cleanTable t).cols, SomeOrNone p.2 ∧
        p.2.length ≤ (applyMask (tc.map Option.isSome) tc).length := by
  have h1 : (imputeTable t).ts = some tc := hts
  constructor
  · simp [cleanTable, clipTable, mapCols, tsTable, h1]
  · intro p hp
    simp only [cleanTable, clipTable, mapCols, tsTable, h1, List.map_map] at hp
    rcases List.mem_map.1 hp with ⟨q, hq, rfl⟩
    simp only [Function.comp, imputeTable, mapCols] at hq ⊢
    rcases List.mem_map.1 hq with ⟨r, _, rfl⟩
    have hbase : SomeOrNone (applyMask (tc.map Option.isSome) (imputeCol r.2)) :=
      applyMask_someOrNone _ _ (someOrNone_imputeCol r.2)
    have hblen : (applyMask (tc.map Option.isSome) (imputeCol r.2)).length ≤
        (applyMask (tc.map Option.isSome) tc).length := applyMask_isSome_length tc _
    by_cases hmem : r.1 ∈ outlierCols
    · simpa [hmem, clipCol_length] using ⟨clipCol_someOrNone _ hbase, hblen⟩
    · simpa [hmem] using ⟨hbase, hblen⟩

theorem cleanTable_cols_someOrNone (t : Table) :
    ∀ p ∈ (cleanTable t).cols, SomeOrNone p.2 := by
  rcases hts : t.ts with _ | tc
  · intro p hp
    rw [(cleanTable_ts_none t hts).1] at hp
    simp only [clipTable, imputeTable, mapCols, List.map_map] at hp
    rcases List.mem_map.1 hp with ⟨q, _, rfl⟩
    simp only [Function.comp]
    by_cases hmem : q.1 ∈ outlierCols
    · simpa [hmem] using clipCol_someOrNone _ (someOrNone_imputeCol q.2)
    · simpa [hmem] using someOrNone_imputeCol q.2
  · intro p hp
    exact ((cleanTable_ts_some t tc hts).2 p hp).1

theorem imputeTable_cleanTable (t : Table) : imputeTable (cleanTable t) = cleanTable t :=
  mapCols_eq_self _ _ fun p hp =>
    imputeCol_eq_self p.2 (cleanTable_cols_someOrNone t p hp)

theorem tsTable_cleanTable (t : Table) : tsTable (cleanTable t) = cleanTable t := by
  rcases hts : t.ts with _ | tc
  · obtain ⟨_, hnone⟩ := cleanTable_ts_none t hts
    simp [tsTable, hnone]
  · obtain ⟨hsome, hcols⟩ := cleanTable_ts_some t tc hts
    refine tsTable_fix _ _ hsome ?_ ?_
    · intro x hx
      rw [applyMask_isSome_filter] at hx
      exact (List.mem_filter.1 hx).2
    · exact fun p hp => (hcols p hp).2

theorem col_mapCols (f : String → Col → Col) (t : Table) (n : String) :
    (mapCols f t).col n = (t.col n).map (f n) :=
  alookup_map_pair f n t.cols

theorem tsTable_none (t : Table) (hts : t.ts = none) : tsTable t = t := by
  cases t with
  | mk cols ts =>
    simp only at hts
    subst hts
    rfl

theorem col_tsTable_some (t : Table) (tc : List (Option Ts)) (n : String)
    (hts : t.ts = some tc) :
    (tsTable t).col n = (t.col n).map (applyMask (tc.map Option.isSome)) := by
  cases t with
  | mk cols ts =>
    simp only at hts
    subst hts
    show alookup (cols.map (fun p => (p.1, applyMask (tc.map Option.isSome) p.2))) n = _
    exact alookup_map_pair (fun _ c => applyMask (tc.map Option.isSome) c) n cols

theorem imputeCol_all_some (c : Col) (m : ℚ) (hm : median? (nonMissing c) = some m) :
    ∀ x ∈ imputeCol c, x.isSome = true := by
  unfold imputeCol
  rw [hm]
  intro x hx
  rcases List.mem_map.1 hx with ⟨y, _, rfl⟩
  rfl

theorem clipCol_all_some (c : Col) (h : ∀ x ∈ c, x.isSome = true) :
    ∀ x ∈ clipCol c, x.isSome = true := by
  unfold clipCol
  rcases quantile? (1/100) (nonMissing c) with _ | lo <;>
    rcases quantile? (99/100) (nonMissing c) with _ | hi <;>
      try exact h
  intro x hx
  rcases List.mem_map.1 hx with ⟨y, hy, rfl⟩
  rcases y with _ | v
  · exact absurd (h none hy) (by simp)
  · rfl

/-! ## Quantile interpolation lemmas -/

theorem nthD_eq_get (s : List ℚ) (i : ℕ) (d : ℚ) (h : i < s.length) :
    nthD s i d = s.get ⟨i, h⟩ := by
  induction s generalizing i with
  | nil => exact absurd h (by simp)
  | cons x xs ih =>
    cases i with
    | zero => rfl
    | succ j => exact ih j (Nat.lt_of_succ_lt_succ h)

theorem nthD_of_length_le (s : List ℚ) (i : ℕ) (d : ℚ) (h : s.length ≤ i) :
    nthD s i d = d := by
  induction s generalizing i with
  | nil => cases i <;> rfl
  | cons x xs ih =>
    cases i with
    | zero => exact absurd h (by simp)
    | succ j => exact ih j (Nat.le_of_succ_le_succ h)

theorem sorted_nthD_mono (s : List ℚ) (hs : s.Sorted (· ≤ ·)) {i j : ℕ} (hij : i ≤ j)
    (hj : j < s.length) (d d' : ℚ) : nthD s i d ≤ nthD s j d' := by
  have hi : i < s.length := lt_of_le_of_lt hij hj
  rw [nthD_eq_get s i d hi, nthD_eq_get s j d' hj]
  exact hs.rel_get_of_le (by exact_mod_cast hij)

theorem nthD_succ_self_le (s : List ℚ) (hs : s.Sorted (· ≤ ·)) (a : ℕ) :
    nthD s a 0 ≤ nthD s (a + 1) (nthD s a 0) := by
  by_cases h : a + 1 < s.length
  · exact sorted_nthD_mono s hs (Nat.le_succ a) h 0 _
  · rw [nthD_of_length_le s (a + 1) _ (Nat.le_of_not_lt h)]

theorem quantileSorted_bounds (s : List ℚ) (hs : s.Sorted (· ≤ ·))
    {q : ℚ} (h0 : 0 ≤ q) (h1 : q ≤ 1) :
    nthD s ((⌊q * ((s.length : ℚ) - 1)⌋).toNat) 0 ≤ quantileSorted q s ∧
      quantileSorted q s ≤
        nthD s ((⌊q * ((s.length : ℚ) - 1)⌋).toNat + 1)
          (nthD s ((⌊q * ((s.length : ℚ) - 1)⌋).toNat) 0) := by
  have hval : quantileSorted q s =
      nthD s ((⌊q * ((s.length : ℚ) - 1)⌋).toNat) 0 +
        (q * ((s.length : ℚ) - 1) - ((⌊q * ((s.length : ℚ) - 1)⌋ : ℤ) : ℚ)) *
          (nthD s ((⌊q * ((s.length : ℚ) - 1)⌋).toNat + 1)
              (nthD s ((⌊q * ((s.length : ℚ) - 1)⌋).toNat) 0) -
            nthD s ((⌊q * ((s.length : ℚ) - 1)⌋).toNat) 0) := rfl
  set h : ℚ := q * ((s.length : ℚ) - 1) with hdef
  set a : ℕ := (⌊h⌋).toNat with hadef
  set lo : ℚ := nthD s a 0 with hlodef
  set hi : ℚ := nthD s (a + 1) lo with hhidef
  have hlohi : lo ≤ hi := nthD_succ_self_le s hs a
  have hf0 : 0 ≤ h - ((⌊h⌋ : ℤ) : ℚ) := sub_nonneg.2 (Int.floor_le h)
  have hf1 : h - ((⌊h⌋ : ℤ) : ℚ) ≤ 1 := by
    have := Int.lt_floor_add_one h
    push_cast at this ⊢
    linarith
  rw [hval]
  constructor
  · nlinarith [mul_nonneg hf0 (sub_nonneg.2 hlohi)]
  · nlinarith [mul_le_mul_of_nonneg_right hf1 (sub_nonneg.2 hlohi)]

theorem quantileSorted_mono (s : List ℚ) (hs : s.Sorted (· ≤ ·)) (hne : s ≠ [])
    {q q' : ℚ} (h0 : 0 ≤ q) (hqq : q ≤ q') (h1 : q' ≤ 1) :
    quantileSorted q s ≤ quantileSorted q' s := by
  have hn1 : 1 ≤ s.length := List.length_pos.2 hne
  have hn1q : (1 : ℚ) ≤ (s.length : ℚ) := by exact_mod_cast hn1
  have hnn : (0 : ℚ) ≤ (s.length : ℚ) - 1 := by linarith
  have h0' : 0 ≤ q' := le_trans h0 hqq
  have h1q : q ≤ 1 := le_trans hqq h1
  set h : ℚ := q * ((s.length : ℚ) - 1) with hdef
  set h' : ℚ := q' * ((s.length : ℚ) - 1) with hdef'
  have hh0 : 0 ≤ h := mul_nonneg h0 hnn
  have hhh : h ≤ h' := mul_le_mul_of_nonneg_right hqq hnn
  have hub : h' ≤ (s.length : ℚ) - 1 := by
    calc h' ≤ 1 * ((s.length : ℚ) - 1) := mul_le_mul_of_nonneg_right h1 hnn
      _ = (s.length : ℚ) - 1 := one_mul _
  have hfl0 : 0 ≤ ⌊h⌋ := Int.le_floor.2 (by exact_mod_cast hh0)
  have hfl0' : 0 ≤ ⌊h'⌋ := Int.le_floor.2 (by exact_mod_cast le_trans hh0 hhh)
  set a : ℕ := (⌊h⌋).toNat with hadef
  set a' : ℕ := (⌊h'⌋).toNat with hadef'
  have haq : ((a : ℕ) : ℚ) = ((⌊h⌋ : ℤ) : ℚ) := by
    rw [hadef]
    exact_mod_cast congrArg (fun z : ℤ => (z : ℚ)) (Int.toNat_of_nonneg hfl0)
  have haq' : ((a' : ℕ) : ℚ) = ((⌊h'⌋ : ℤ) : ℚ) := by
    rw [hadef']
    exact_mod_cast congrArg (fun z : ℤ => (z : ℚ)) (Int.toNat_of_nonneg hfl0')
  have haa : a ≤ a' := Int.toNat_le_toNat (Int.floor_le_floor hhh)
  have ha'n : a' < s.length := by
    have h1' : ((a' : ℕ) : ℚ) ≤ (s.length : ℚ) - 1 := by
      rw [haq']
      exact le_trans (Int.floor_le h') hub
    have : ((a' : ℕ) : ℚ) < (s.length : ℚ) := by linarith
    exact_mod_cast this
  have han : a < s.length := lt_of_le_of_lt (Nat.lt_succ_iff.1 (Nat.lt_succ_of_le haa)) ha'n
  rcases Nat.lt_or_ge a a' with hlt | hge
  · -- the two floors differ: chain through the sorted entries between them
    have hb1 := (quantileSorted_bounds s hs h0 h1q).2
    have hb2 := (quantileSorted_bounds s hs h0' h1).1
    refine le_trans hb1 (le_trans ?_ hb2)
    show nthD s (a + 1) (nthD s a 0) ≤ nthD s a' 0
    exact sorted_nthD_mono s hs hlt ha'n _ 0
  · -- same floor: compare the interpolation fractions
    have haa' : a = a' := le_antisymm haa hge
    have hval : quantileSorted q s =
        nthD s a 0 + (h - ((⌊h⌋ : ℤ) : ℚ)) * (nthD s (a + 1) (nthD s a 0) - nthD s a 0) := rfl
    have hval' : quantileSorted q' s =
        nthD s a' 0 + (h' - ((⌊h'⌋ : ℤ) : ℚ)) *
          (nthD s (a' + 1) (nthD s a' 0) - nthD s a' 0) := rfl
    rw [hval, hval', ← haa']
    have hflooreq : ((⌊h⌋ : ℤ) : ℚ) = ((⌊h'⌋ : ℤ) : ℚ) := by
      rw [← haq, ← haq', haa']
    have hfle : h - ((⌊h⌋ : ℤ) : ℚ) ≤ h' - ((⌊h'⌋ : ℤ) : ℚ) := by
      rw [← hflooreq]
      linarith
    have hlohi : nthD s a 0 ≤ nthD s (a + 1) (nthD s a 0) := nthD_succ_self_le s hs a
    nlinarith [mul_le_mul_of_nonneg_right hfle (sub_nonneg.2 hlohi)]

theorem quantile?_le_quantile? (xs : List ℚ) {q q' : ℚ}
    (h0 : 0 ≤ q) (hqq : q ≤ q') (h1 : q' ≤ 1) {lo hi : ℚ}
    (hlo : quantile? q xs = some lo) (hhi : quantile? q' xs = some hi) : lo ≤ hi := by
  cases xs with
  | nil => exact absurd hlo (by simp [quantile?])
  | cons x l =>
    have hsorted : (sortedAsc (x :: l)).Sorted (· ≤ ·) := List.sorted_insertionSort _ _
    have hne : sortedAsc (x :: l) ≠ [] := by
      have : (sortedAsc (x :: l)).length = (x :: l).length := List.length_insertionSort _ _
      intro hcon
      rw [hcon] at this
      simp at this
    have h1' := quantileSorted_mono (sortedAsc (x :: l)) hsorted hne h0 hqq h1
    simp only [quantile?, Option.some.injEq] at hlo hhi
    rw [← hlo, ← hhi]
    exact h1'

/-! ## Claim C2: clipping to the [P1, P99] percentile interval -/

/-- C2: for every clipped column present in the table, with `co` the
column's content at the point of clipping (after imputation and the
timestamp row-drop) and `lo`, `hi` its 1st and 99th percentiles, the
cleaned column is exactly the clip of `co`; every non-missing cleaned
value lies in [lo, hi]; values above the 99th percentile are set to
exactly it and values below the 1st percentile are set to exactly it. -/
theorem c2_clipped_to_percentiles (t : Table) (name : String) (hname : name ∈ outlierCols)
    (co : Col) (hc : (tsTable (imputeTable t)).col name = some co)
    (lo hi : ℚ) (hlo : quantile? (1/100) (nonMissing co) = some lo)
    (hhi : quantile? (99/100) (nonMissing co) = some hi) :
    (cleanTable t).col name = some (clipCol co) ∧
      (∀ v : ℚ, some v ∈ clipCol co → lo ≤ v ∧ v ≤ hi) ∧
      (∀ (i : ℕ) (v : ℚ), co[i]? = some (some v) →
        (hi < v → (clipCol co)[i]? = some (some hi)) ∧
        (v < lo → (clipCol co)[i]? = some (some lo))) := by
  have hlohi : lo ≤ hi :=
    quantile?_le_quantile? (nonMissing co) (by norm_num) (by norm_num) (by norm_num) hlo hhi
  have hclip : clipCol co = co.map (Option.map (clipVal lo hi)) := by
    unfold clipCol
    rw [hlo, hhi]
  refine ⟨?_, ?_, ?_⟩
  · show (mapCols (fun n c => if n ∈ outlierCols then clipCol c else c)
        (tsTable (imputeTable t))).col name = some (clipCol co)
    rw [col_mapCols, hc]
    simp [hname]
  · intro v hv
    rw [hclip] at hv
    obtain ⟨y, _, hmap⟩ := List.mem_map.1 hv
    rcases y with _ | w
    · exact absurd hmap (by simp)
    · have hvw : clipVal lo hi w = v := by
        simpa using hmap
      rw [← hvw]
      unfold clipVal
      exact ⟨le_min (le_max_right w lo) hlohi, min_le_right _ hi⟩
  · intro i v hiv
    rw [hclip, List.getElem?_map, hiv]
    refine ⟨?_, ?_⟩
    · intro hgt
      have hvlo : max v lo = v := max_eq_left (le_trans hlohi (le_of_lt hgt))
      have : clipVal lo hi v = hi := by
        unfold clipVal
        rw [hvlo]
        exact min_eq_right (le_of_lt hgt)
      simp [this]
    · intro hlt
      have hvlo : max v lo = lo := max_eq_right (le_of_lt hlt)
      have : clipVal lo hi v = lo := by
        unfold clipVal
        rw [hvlo]
        exact min_eq_left hlohi
      simp [this]

/-- C2 witness: the clipping theorem applied to the table with
GHI = [0, 100, 200, 300, 400], whose percentiles are P1 = 4 and
P99 = 396. -/
theorem c2_clipped_to_percentiles_witness :
    "GHI" ∈ outlierCols ∧
      (tsTable (imputeTable tRamp)).col "GHI"
        = some [some 0, some 100, some 200, some 300, some 400] ∧
      quantile? (1/100) (nonMissing [some 0, some 100, some 200, some 300, some 400])
        = some 4 ∧
      quantile? (99/100) (nonMissing [some 0, some 100, some 200, some 300, some 400])
        = some 396 ∧
      ((cleanTable tRamp).col "GHI"
          = some (clipCol [some 0, some 100, some 200, some 300, some 400]) ∧
        (∀ v : ℚ, some v ∈ clipCol [some 0, some 100, some 200, some 300, some 400] →
          4 ≤ v ∧ v ≤ 396) ∧
        (∀ (i : ℕ) (v : ℚ),
          [some (0 : ℚ), some 100, some 200, some 300, some 400][i]? = some (some v) →
          (396 < v →
            (clipCol [some 0, some 100, some 200, some 300, some 400])[i]? = some (some 396)) ∧
          (v < 4 →
            (clipCol [some 0, some 100, some 200, some 300, some 400])[i]? = some (some 4)))) := by
  have hf2 : Int.fract ((2 : ℚ)) = 0 := by unfold Int.fract; norm_num
  have hf1 : Int.fract ((1 : ℚ)/25) = 1/25 := by unfold Int.fract; norm_num
  have hf99 : Int.fract ((99 : ℚ)/25) = 24/25 := by unfold Int.fract; norm_num
  have hc : (tsTable (imputeTable tRamp)).col "GHI"
      = some [some 0, some 100, some 200, some 300, some 400] := by
    norm_num [tRamp, tsTable, imputeTable, mapCols, imputeCol, median?, quantile?,
      quantileSorted, sortedAsc, List.insertionSort, List.orderedInsert, nthD, nonMissing,
      Table.col, alookup, hf2]
  have hlo : quantile? (1/100) (nonMissing [some 0, some 100, some 200, some 300, some 400])
      = some 4 := by
    norm_num [quantile?, quantileSorted, sortedAsc, List.insertionSort, List.orderedInsert,
      nthD, nonMissing, hf1]
  have hhi : quantile? (99/100) (nonMissing [some 0, some 100, some 200, some 300, some 400])
      = some 396 := by
    norm_num [quantile?, quantileSorted, sortedAsc, List.insertionSort, List.orderedInsert,
      nthD, nonMissing, hf99]
  exact ⟨by simp [outlierCols], hc, hlo, hhi,
    c2_clipped_to_percentiles tRamp "GHI" (by simp [outlierCols]) _ hc 4 396 hlo hhi⟩

/-! ## Claim C1: median imputation of missing values -/

/-- C1 amended: for a numeric column with at least one non-missing
entry, the imputation step replaces every missing entry by the
pre-imputation median of the column's non-missing entries and leaves
non-missing entries unchanged, and after the full cleaning stage the
column has zero missing values. -/
theorem c1_missing_filled_with_median (t : Table) (name : String) (co : Col) (m : ℚ)
    (hc : t.col name = some co) (hm : median? (nonMissing co) = some m)
    (hmiss : none ∈ co) :
    (∀ i : ℕ, co[i]? = some none → (imputeCol co)[i]? = some (some m)) ∧
      (∀ (i : ℕ) (v : ℚ), co[i]? = some (some v) → (imputeCol co)[i]? = some (some v)) ∧
      (∃ c₂, (cleanTable t).col name = some c₂ ∧ ∀ x ∈ c₂, x.isSome = true) := by
  refine ⟨?_, ?_, ?_⟩
  · intro i hi
    unfold imputeCol
    rw [hm, List.getElem?_map, hi]
    rfl
  · intro i v hi
    unfold imputeCol
    rw [hm, List.getElem?_map, hi]
    rfl
  · have himp : (imputeTable t).col name = some (imputeCol co) := by
      rw [show imputeTable t = mapCols (fun _ c => imputeCol c) t from rfl, col_mapCols, hc]
      rfl
    have hsome : ∀ x ∈ imputeCol co, x.isSome = true := imputeCol_all_some co m hm
    obtain ⟨c₁, hc₁, hs₁⟩ :
        ∃ c₁, (tsTable (imputeTable t)).col name = some c₁ ∧ ∀ x ∈ c₁, x.isSome = true := by
      rcases hts : t.ts with _ | tc
      · exact ⟨imputeCol co, by rw [tsTable_none (imputeTable t) hts, himp], hsome⟩
      · refine ⟨applyMask (tc.map Option.isSome) (imputeCol co), ?_, ?_⟩
        · rw [col_tsTable_some (imputeTable t) tc name hts, himp]
          rfl
        · intro x hx
          exact hsome x (applyMask_mem _ _ x hx)
    have hcc : (cleanTable t).col name = ((tsTable (imputeTable t)).col name).map
        (fun c₀ => if name ∈ outlierCols then clipCol c₀ else c₀) :=
      col_mapCols _ _ name
    by_cases hmem : name ∈ outlierCols
    · refine ⟨clipCol c₁, ?_, clipCol_all_some c₁ hs₁⟩
      rw [hcc, hc₁]
      simp [hmem]
    · refine ⟨c₁, ?_, hs₁⟩
      rw [hcc, hc₁]
      simp [hmem]

/-- C1 witness: the amended theorem applied to the table whose GHI
column is [0, 0, NaN, 10, 10]; the missing cell is imputed with the
median 5 and the cleaned column has no missing values. -/
theorem c1_missing_filled_with_median_witness :
    tDropClip.col "GHI" = some [some 0, some 0, none, some 10, some 10] ∧
      median? (nonMissing [some 0, some 0, none, some 10, some 10]) = some 5 ∧
      none ∈ [some (0 : ℚ), some 0, none, some 10, some 10] ∧
      ((∀ i : ℕ, [some (0 : ℚ), some 0, none, some 10, some 10][i]? = some none →
          (imputeCol [some 0, some 0, none, some 10, some 10])[i]? = some (some 5)) ∧
        (∀ (i : ℕ) (v : ℚ),
            [some (0 : ℚ), some 0, none, some 10, some 10][i]? = some (some v) →
            (imputeCol [some 0, some 0, none, some 10, some 10])[i]? = some (some v)) ∧
        (∃ c₂, (cleanTable tDropClip).col "GHI" = some c₂ ∧ ∀ x ∈ c₂, x.isSome = true)) := by
  have h1 : tDropClip.col "GHI" = some [some 0, some 0, none, some 10, some 10] := by
    simp [tDropClip, Table.col, alookup]
  have h2 : median? (nonMissing [some 0, some 0, none, some 10, some 10]) = some 5 := by
    have hf : Int.fract ((3 : ℚ)/2) = 1/2 := by unfold Int.fract; norm_num
    norm_num [median?, quantile?, quantileSorted, sortedAsc, List.insertionSort,
      List.orderedInsert, nthD, nonMissing, hf]
  exact ⟨h1, h2, by simp,
    c1_missing_filled_with_median tDropClip "GHI" _ 5 h1 h2 (by simp)⟩

/-- C1 counterexample: the claim fails as stated on two tables. In
`tAllMissing` the GHI column is entirely missing, so after cleaning it
still has missing values. In `tDropClip` (GHI = [0, 0, NaN, 10, 10],
the last two timestamps unparseable) the missing cell is imputed with
the median 5, but after the rows with unparseable timestamps are
dropped the percentile clipping moves that cell to 4.9 ≠ 5, so after
the cleaning stage the formerly-missing value does not equal the
pre-imputation median. -/
theorem c1_counterexample :
    (cleanTable tAllMissing).col "GHI" = some [none, none] ∧
      median? (nonMissing [some 0, some 0, none, some 10, some 10]) = some 5 ∧
      (cleanTable tDropClip).col "GHI" = some [some 0, some 0, some (49/10)] ∧
      (49/10 : ℚ) ≠ 5 := by
  have hf32 : Int.fract ((3 : ℚ)/2) = 1/2 := by unfold Int.fract; norm_num
  have hf150 : Int.fract ((1 : ℚ)/50) = 1/50 := by unfold Int.fract; norm_num
  have hf9950 : Int.fract ((99 : ℚ)/50) = 49/50 := by unfold Int.fract; norm_num
  refine ⟨?_, ?_, ?_, by norm_num⟩
  · norm_num [cleanTable, clipTable, tsTable, imputeTable, mapCols, tAllMissing, outlierCols,
      clipCol, imputeCol, clipVal, median?, quantile?, quantileSorted, sortedAsc,
      List.insertionSort, List.orderedInsert, nthD, nonMissing, Table.col, alookup]
  · norm_num [median?, quantile?, quantileSorted, sortedAsc, List.insertionSort,
      List.orderedInsert, nthD, nonMissing, hf32]
  · norm_num [cleanTable, clipTable, tsTable, imputeTable, mapCols, tDropClip, outlierCols,
      clipCol, imputeCol, clipVal, median?, quantile?, quantileSorted, sortedAsc,
      List.insertionSort, List.orderedInsert, nthD, nonMissing, Table.col, alookup,
      applyMask, hf32, hf150, hf9950, min_def, max_def]

/-! ## Claim C4: cleaning is not idempotent -/

/-- C4 counterexample: on the table with GHI = [0, 100, 200, 300, 400],
cleaning once clips to [4, 100, 200, 300, 396], and cleaning again
re-clips to the narrower [P1, P99] of the clipped data, changing the
table: cleaning is not idempotent. -/
theorem c4_cleaning_not_idempotent_counterexample :
    cleanTable (cleanTable tRamp) ≠ cleanTable tRamp := by
  have hf1 : Int.fract ((1 : ℚ)/25) = 1/25 := by unfold Int.fract; norm_num
  have hf99 : Int.fract ((99 : ℚ)/25) = 24/25 := by unfold Int.fract; norm_num
  have h1 : cleanTable tRamp
      = ⟨[("GHI", [some 4, some 100, some 200, some 300, some 396])], none⟩ := by
    norm_num [cleanTable, clipTable, tsTable, imputeTable, mapCols, tRamp, outlierCols,
      clipCol, imputeCol, clipVal, median?, quantile?, quantileSorted, sortedAsc,
      List.insertionSort, List.orderedInsert, nthD, nonMissing, hf1, hf99, min_def, max_def]
  have h2 : cleanTable ⟨[("GHI", [some 4, some 100, some 200, some 300, some 396])], none⟩
      = ⟨[("GHI", [some (196/25), some 100, some 200, some 300, some (9804/25)])], none⟩ := by
    norm_num [cleanTable, clipTable, tsTable, imputeTable, mapCols, outlierCols,
      clipCol, imputeCol, clipVal, median?, quantile?, quantileSorted, sortedAsc,
      List.insertionSort, List.orderedInsert, nthD, nonMissing, hf1, hf99, min_def, max_def]
  rw [h1, h2]
  intro h
  rw [Table.mk.injEq] at h
  simp only [List.cons.injEq, Prod.mk.injEq, Option.some.injEq, and_true] at h
  norm_num at h

/-- C4 amended: re-cleaning an already-cleaned table performs no further
imputation and drops no rows (the imputation and timestamp stages fix
every cleaned table), so a second cleaning reduces to re-clipping the
clipped columns to the narrower percentile bounds of the cleaned data;
cleaning is therefore not idempotent in general. -/
theorem c4_second_clean_is_reclip (t : Table) :
    imputeTable (cleanTable t) = cleanTable t ∧ tsTable (cleanTable t) = cleanTable t ∧
      cleanTable (cleanTable t) = clipTable (cleanTable t) := by
  refine ⟨imputeTable_cleanTable t, tsTable_cleanTable t, ?_⟩
  show clipTable (tsTable (imputeTable (cleanTable t))) = clipTable (cleanTable t)
  rw [imputeTable_cleanTable t, tsTable_cleanTable t]

/-! ## Claim C5: the aggregator excludes countries without data -/

/-- C5: when exactly one of the three fixed countries has no backing
file and the other two load non-empty tables carrying the GHI, DNI and
DHI columns, the comparison table has exactly two rows, one per country
with data, in the fixed country order, and no row for the missing
country. -/
theorem c5_two_rows_missing_excluded (fs : String → Option Table) (missing : String)
    (hmem : missing ∈ countriesL)
    (hmiss : fs (fileOf missing) = none)
    (hothers : ∀ c ∈ countriesL, c ≠ missing →
      ∃ tb, fs (fileOf c) = some tb ∧ tb.isEmpty = false ∧
        tb.hasCol "GHI" = true ∧ tb.hasCol "DNI" = true ∧ tb.hasCol "DHI" = true) :
    ∃ rows, get_country_metrics fs (fun _ => none) = .ok rows ∧ rows.length = 2 ∧
      rows.map CountryRow.country = countriesL.erase missing ∧
      ∀ r ∈ rows, r.country ≠ missing := by
  simp only [countriesL, List.mem_cons, List.not_mem_nil, or_false] at hmem
  rcases hmem with rfl | rfl | rfl
  · obtain ⟨t1, h1, h1e, h1g, h1d, h1h⟩ :=
      hothers "Sierra Leone" (by simp [countriesL]) (by simp)
    obtain ⟨t2, h2, h2e, h2g, h2d, h2h⟩ := hothers "Togo" (by simp [countriesL]) (by simp)
    have hB : fs "benin_clean.csv" = none := by simpa [fileOf, file_map, alookup] using hmiss
    have h1' : fs "sierraleone_clean.csv" = some t1 := by
      simpa [fileOf, file_map, alookup] using h1
    have h2' : fs "togo_clean.csv" = some t2 := by simpa [fileOf, file_map, alookup] using h2
    refine ⟨[⟨colMean? t1 "GHI", colMean? t1 "DNI", colMean? t1 "DHI", "Sierra Leone"⟩,
             ⟨colMean? t2 "GHI", colMean? t2 "DNI", colMean? t2 "DHI", "Togo"⟩], ?_, by simp,
             by simp [countriesL], by simp⟩
    have hE : emptyTable.isEmpty = true := rfl
    simp [get_country_metrics, countriesL, metricsAux, load_country_data, file_map, alookup,
      hB, h1', h2', hE, metricRow, h1e, h2e, h1g, h1d, h1h, h2g, h2d, h2h]
  · obtain ⟨t1, h1, h1e, h1g, h1d, h1h⟩ := hothers "Benin" (by simp [countriesL]) (by simp)
    obtain ⟨t2, h2, h2e, h2g, h2d, h2h⟩ := hothers "Togo" (by simp [countriesL]) (by simp)
    have hB : fs "sierraleone_clean.csv" = none := by
      simpa [fileOf, file_map, alookup] using hmiss
    have h1' : fs "benin_clean.csv" = some t1 := by simpa [fileOf, file_map, alookup] using h1
    have h2' : fs "togo_clean.csv" = some t2 := by simpa [fileOf, file_map, alookup] using h2
    refine ⟨[⟨colMean? t1 "GHI", colMean? t1 "DNI", colMean? t1 "DHI", "Benin"⟩,
             ⟨colMean? t2 "GHI", colMean? t2 "DNI", colMean? t2 "DHI", "Togo"⟩], ?_, by simp,
             by simp [countriesL], by simp⟩
    have hE : emptyTable.isEmpty = true := rfl
    simp [get_country_metrics, countriesL, metricsAux, load_country_data, file_map, alookup,
      hB, h1', h2', hE, metricRow, h1e, h2e, h1g, h1d, h1h, h2g, h2d, h2h]
  · obtain ⟨t1, h1, h1e, h1g, h1d, h1h⟩ := hothers "Benin" (by simp [countriesL]) (by simp)
    obtain ⟨t2, h2, h2e, h2g, h2d, h2h⟩ :=
      hothers "Sierra Leone" (by simp [countriesL]) (by simp)
    have hB : fs "togo_clean.csv" = none := by simpa [fileOf, file_map, alookup] using hmiss
    have h1' : fs "benin_clean.csv" = some t1 := by simpa [fileOf, file_map, alookup] using h1
    have h2' : fs "sierraleone_clean.csv" = some t2 := by
      simpa [fileOf, file_map, alookup] using h2
    refine ⟨[⟨colMean? t1 "GHI", colMean? t1 "DNI", colMean? t1 "DHI", "Benin"⟩,
             ⟨colMean? t2 "GHI", colMean? t2 "DNI", colMean? t2 "DHI", "Sierra Leone"⟩],
             ?_, by simp, by simp [countriesL], by simp⟩
    have hE : emptyTable.isEmpty = true := rfl
    simp [get_country_metrics, countriesL, metricsAux, load_country_data, file_map, alookup,
      hB, h1', h2', hE, metricRow, h1e, h2e, h1g, h1d, h1h, h2g, h2d, h2h]

/-- C5 witness: Sierra Leone's file is absent, Benin's and Togo's files
load one-row tables; the aggregator yields exactly the Benin and Togo
rows. -/
theorem c5_two_rows_missing_excluded_witness :
    "Sierra Leone" ∈ countriesL ∧
      (fun f => if f = "benin_clean.csv" then some tBeninW
        else if f = "togo_clean.csv" then some tTogoW else none) (fileOf "Sierra Leone")
        = none ∧
      (∃ rows, get_country_metrics
          (fun f => if f = "benin_clean.csv" then some tBeninW
            else if f = "togo_clean.csv" then some tTogoW else none) (fun _ => none)
          = .ok rows ∧ rows.length = 2 ∧
        rows.map CountryRow.country = countriesL.erase "Sierra Leone" ∧
        ∀ r ∈ rows, r.country ≠ "Sierra Leone") := by
  refine ⟨by simp [countriesL], by simp [fileOf, file_map, alookup], ?_⟩
  refine c5_two_rows_missing_excluded _ "Sierra Leone" (by simp [countriesL])
    (by simp [fileOf, file_map, alookup]) ?_
  intro c hc hne
  simp only [countriesL, List.mem_cons, List.not_mem_nil, or_false] at hc
  rcases hc with rfl | rfl | rfl
  · exact ⟨tBeninW, by simp [fileOf, file_map, alookup],
      by simp [tBeninW, Table.isEmpty, Table.nrows, Table.ncols],
      by simp [tBeninW, Table.hasCol, Table.col, alookup],
      by simp [tBeninW, Table.hasCol, Table.col, alookup],
      by simp [tBeninW, Table.hasCol, Table.col, alookup]⟩
  · exact absurd rfl hne
  · exact ⟨tTogoW, by simp [fileOf, file_map, alookup],
      by simp [tTogoW, Table.isEmpty, Table.nrows, Table.ncols],
      by simp [tTogoW, Table.hasCol, Table.col, alookup],
      by simp [tTogoW, Table.hasCol, Table.col, alookup],
      by simp [tTogoW, Table.hasCol, Table.col, alookup]⟩

/-! ## Claim C6: unknown country identifiers fail with a KeyError -/

/-- C6: for every country identifier outside {Benin, Sierra Leone,
Togo}, calling the loader without an uploaded file fails with the
KeyError (InvalidArgument) condition rather than returning a table. -/
theorem c6_unknown_country_keyerror (country : String) (h : country ∉ countriesL)
    (fs : String → Option Table) :
    load_country_data country fs none = .error ("KeyError: " ++ country) := by
  have h1 : country ≠ "Benin" := by intro he; exact h (by simp [countriesL, he])
  have h2 : country ≠ "Sierra Leone" := by intro he; exact h (by simp [countriesL, he])
  have h3 : country ≠ "Togo" := by intro he; exact h (by simp [countriesL, he])
  simp [load_country_data, file_map, alookup, Ne.symm h1, Ne.symm h2, Ne.symm h3]

/-- C6 witness: the loader rejects the unknown country "Mars". -/
theorem c6_unknown_country_keyerror_witness :
    "Mars" ∉ countriesL ∧
      load_country_data "Mars" (fun _ => none) none = .error ("KeyError: " ++ "Mars") :=
  ⟨by simp [countriesL], c6_unknown_country_keyerror "Mars" (by simp [countriesL]) _⟩

/-! ## Claim C10: an uploaded file bypasses the country map -/

/-- C10: for every country identifier (with no restriction to the fixed
three-country set), when an uploaded file is supplied the loader returns
that file's table, never consulting the country-to-filename map and
never raising the unknown-country condition. -/
theorem c10_uploaded_file_bypasses_map (country : String)
    (fs : String → Option Table) (t : Table) :
    load_country_data country fs (some t) = .ok t := rfl

/-! ## Claim C3: the worked GHI = [100, 100, 100, 100, 10000] example -/

/-- C3 counterexample: on the spec's example table the z-score outlier
count reported for GHI is 0, not 1 as the claim states (the outlier's
z-score is exactly 2, below the |z| > 3 threshold). -/
theorem c3_zscore_count_counterexample :
    alookup (zOutlierReport tSpike) "GHI" = some 0 ∧
      alookup (zOutlierReport tSpike) "GHI" ≠ some 1 := by
  have hpre : tsTable (imputeTable tSpike) = tSpike := by
    norm_num [tSpike, tsTable, imputeTable, mapCols, imputeCol, median?, quantile?,
      quantileSorted, sortedAsc, List.insertionSort, List.orderedInsert, nthD, nonMissing]
  have he : zOutlierReport tSpike = [("GHI", 0)] := by
    rw [zOutlierReport, hpre]
    have hz : zOutlierCount (nonMissing [some 100, some 100, some 100, some 100, some 10000])
        = 0 := by
      norm_num [zOutlierCount, nonMissing, List.countP, List.countP.go]
    simp [outlierCols, Table.col, tSpike, alookup, hz]
  rw [he]
  norm_num [alookup]

/-- C3 amended: cleaning the raw table with GHI = [100, 100, 100, 100,
10000] clips the outlier down to the table's 99th-percentile GHI value
9604, and the z-score outlier count reported for GHI equals 0 (the
outlier's |z| is 2, below the 3 threshold). -/
theorem c3_spike_clipped_to_p99 :
    (cleanTable tSpike).col "GHI"
        = some [some 100, some 100, some 100, some 100, some 9604] ∧
      quantile? (99/100) (nonMissing [some 100, some 100, some 100, some 100, some 10000])
        = some 9604 ∧
      alookup (zOutlierReport tSpike) "GHI" = some 0 := by
  refine ⟨?_, ?_, ?_⟩
  · norm_num [cleanTable, clipTable, tsTable, imputeTable, mapCols, tSpike, Table.col, alookup,
      outlierCols, clipCol, imputeCol, clipVal, median?, quantile?, quantileSorted, sortedAsc,
      List.insertionSort, List.orderedInsert, nthD, nonMissing]
  · norm_num [quantile?, quantileSorted, sortedAsc, List.insertionSort, List.orderedInsert,
      nthD, nonMissing]
  · norm_num [zOutlierReport, outlierCols, tSpike, tsTable, imputeTable, mapCols, imputeCol,
      median?, quantile?, quantileSorted, sortedAsc, List.insertionSort, List.orderedInsert,
      nthD, nonMissing, Table.col, alookup, zOutlierCount, List.countP, List.countP.go,
      List.filterMap_cons, List.filterMap_nil]


/-! ## Claim C9: the raw table is never mutated -/

theorem monthly_hourly_state_df (s : EDAState) : (monthly_hourly_state s).df = s.df := by
  unfold monthly_hourly_state
  rcases hd : s.df_clean with _ | t
  · rfl
  · rcases ht : t.ts with _ | tc <;> simp [ht]

theorem alookup_setCol_entry {α : Type} (n n' : String) (cnew : α) (h : n' ≠ n) :
    ∀ l : List (String × α),
      alookup (l.map (fun p => if p.1 = n then (n, cnew) else p)) n' = alookup l n' := by
  intro l
  induction l with
  | nil => rfl
  | cons p ps ih =>
    by_cases hp : p.1 = n
    · simp only [List.map_cons, if_pos hp, alookup, if_neg (Ne.symm h), ih,
        if_neg (hp ▸ (fun he => h he.symm) : ¬p.1 = n')]
    · simp only [List.map_cons, if_neg hp, alookup, ih]

theorem alookup_append_single {α : Type} (n n' : String) (cnew : α) (h : n' ≠ n) :
    ∀ l : List (String × α),
      alookup (l ++ [(n, cnew)]) n' = alookup l n' := by
  intro l
  induction l with
  | nil => simp [alookup, Ne.symm h]
  | cons p ps ih =>
    by_cases hp : p.1 = n'
    · simp [alookup, hp]
    · simp [alookup, hp, ih]

theorem col_setCol (t : Table) (n n' : String) (cnew : Col) (h : n' ≠ n) :
    (setCol t n cnew).col n' = t.col n' := by
  unfold setCol Table.col
  by_cases hp : (alookup t.cols n).isSome
  · simp only [hp, if_pos rfl, if_true]
    exact alookup_setCol_entry n n' cnew h t.cols
  · simp only [hp, Bool.false_eq_true, if_false]
    exact alookup_append_single n n' cnew h t.cols

/-- C9: the cleaning stage assigns only the `df_clean` attribute, built
from a copy of the raw table, leaving the raw `df` attribute unchanged;
the monthly/hourly stage likewise leaves `df` unchanged, and the derived
`Month` and `Hour` columns it assigns into the cleaned table do not
modify or overwrite any column with another name. -/
theorem c9_raw_df_never_mutated (s : EDAState) (t : Table) (name : String)
    (h1 : name ≠ "Month") (h2 : name ≠ "Hour") :
    (clean_data s).df = s.df ∧ (monthly_hourly_state (clean_data s)).df = s.df ∧
      (addMonthHour t).col name = t.col name := by
  refine ⟨rfl, monthly_hourly_state_df (clean_data s), ?_⟩
  unfold addMonthHour
  rcases t.ts with _ | tc
  · rfl
  · rw [col_setCol _ "Hour" name _ h2, col_setCol _ "Month" name _ h1]

/-- C9 witness: the frame property applied to a loaded state and to the
GHI column of a concrete table. -/
theorem c9_raw_df_never_mutated_witness :
    (clean_data sRaw).df = sRaw.df ∧ (monthly_hourly_state (clean_data sRaw)).df = sRaw.df ∧
      (addMonthHour tMH2).col "GHI" = tMH2.col "GHI" :=
  c9_raw_df_never_mutated sRaw tMH2 "GHI" (by simp) (by simp)

/-! ## Claim C7: column guards of the analytics stage -/

/-- C7 amended: every descriptive sub-analysis is guarded by
column-presence checks, and a missing column aborts nothing except the
monthly/hourly aggregation. The time-series and cleaning-impact guards
skip with a printed diagnostic; the correlation, distribution
(histograms and wind rose), temperature and bubble-chart guards skip
silently. The monthly/hourly aggregation is guarded only on the
presence of `Timestamp`: skipped with a printed message when it is
absent, completing when it and all of GHI, DNI, DHI, Tamb are present,
but failing with a missing-column `KeyError` when `Timestamp` is
present and one of the four is absent. -/
theorem c7_sub_analysis_guards (t : Table) :
    (t.ts = none →
      time_series_analysis t = (["No Timestamp column for time series analysis."], []) ∧
        monthly_hourly_analysis t = .ok none) ∧
      (∀ tc, t.ts = some tc →
        (reqCols4.all (fun n => (addMonthHour t).hasCol n) = true →
          ∃ out, monthly_hourly_analysis t = .ok (some out)) ∧
        (reqCols4.all (fun n => (addMonthHour t).hasCol n) = false →
          monthly_hourly_analysis t = .error "KeyError: columns not found")) ∧
      (["Cleaning", "ModA", "ModB"].all (fun n => t.hasCol n) = false →
        cleaning_impact_analysis t
          = (["Cleaning, ModA, or ModB columns missing for impact analysis."], none)) ∧
      ((∀ n ∈ corrCandidateCols, t.hasCol n = false) → (correlation_analysis t).1 = none) ∧
      (∀ p ∈ (correlation_analysis t).2, t.hasCol p.1 = true ∧ t.hasCol p.2 = true) ∧
      (∀ n ∈ (distribution_analysis t).1, t.hasCol n = true) ∧
      (t.hasCol "WS" = false ∨ t.hasCol "WD" = false → windRoseMeans t = none) ∧
      (["RH", "Tamb", "GHI"].all (fun n => t.hasCol n) = false →
        temperature_analysis t = none) ∧
      (["GHI", "Tamb", "RH", "BP"].all (fun n => t.hasCol n) = false →
        bubble_chart t = none) := by
  refine ⟨?_, ?_, ?_, ?_, ?_, ?_, ?_, ?_, ?_⟩
  · intro h
    exact ⟨by simp [time_series_analysis, h], by simp [monthly_hourly_analysis, h]⟩
  · intro tc hts
    constructor
    · intro hall
      exact ⟨(monthlyTable (addMonthHour t) tc, hourlyTable (addMonthHour t) tc),
        by simp [monthly_hourly_analysis, hts, hall]⟩
    · intro hfail
      simp [monthly_hourly_analysis, hts, hfail]
  · intro h
    simp [cleaning_impact_analysis, h]
  · intro h
    have hnil : corrCandidateCols.filter (fun n => t.hasCol n) = [] :=
      List.filter_eq_nil_iff.2 (fun n hn => by simp [h n hn])
    simp [correlation_analysis, hnil]
  · intro p hp
    have hp' : p ∈ scatterPairCols.filter (fun p => t.hasCol p.1 && t.hasCol p.2) := hp
    have := List.of_mem_filter hp'
    simpa using this
  · intro n hn
    have hn' : n ∈ ["GHI", "WS"].filter (fun n => t.hasCol n) := hn
    exact List.of_mem_filter hn'
  · intro h
    rcases h with h | h <;> simp [windRoseMeans, h]
  · intro h
    simp [temperature_analysis, h]
  · intro h
    simp [bubble_chart, h]

/-- C7 witness: the guards applied to concrete tables — no Timestamp
(time-series and monthly/hourly skip, the former with its message),
Timestamp plus all four key columns (success), Timestamp but no Tamb
(error), a table with only a GHI column (cleaning-impact skip with its
message, temperature, bubble and wind-rose skips), and a table with no
columns at all (correlation heatmap skip). -/
theorem c7_sub_analysis_guards_witness :
    time_series_analysis tMH1 = (["No Timestamp column for time series analysis."], []) ∧
      monthly_hourly_analysis tMH1 = .ok none ∧
      (∃ out, monthly_hourly_analysis tMH2 = .ok (some out)) ∧
      monthly_hourly_analysis tMH3 = .error "KeyError: columns not found" ∧
      cleaning_impact_analysis tMH1
        = (["Cleaning, ModA, or ModB columns missing for impact analysis."], none) ∧
      (correlation_analysis emptyTable).1 = none ∧
      windRoseMeans tMH1 = none ∧
      temperature_analysis tMH1 = none ∧
      bubble_chart tMH1 = none := by
  refine ⟨((c7_sub_analysis_guards tMH1).1 rfl).1, ((c7_sub_analysis_guards tMH1).1 rfl).2,
    ?_, ?_, ?_, ?_, ?_, ?_, ?_⟩
  · refine ((c7_sub_analysis_guards tMH2).2.1 [some ⟨1, 0, 0⟩] rfl).1 ?_
    simp [reqCols4, addMonthHour, tMH2, setCol, monthCol, hourCol, Table.hasCol,
      Table.col, alookup]
  · refine ((c7_sub_analysis_guards tMH3).2.1 [some ⟨1, 0, 0⟩] rfl).2 ?_
    simp [reqCols4, addMonthHour, tMH3, setCol, monthCol, hourCol, Table.hasCol,
      Table.col, alookup]
  · refine (c7_sub_analysis_guards tMH1).2.2.1 ?_
    simp [tMH1, Table.hasCol, Table.col, alookup]
  · refine (c7_sub_analysis_guards emptyTable).2.2.2.1 ?_
    intro n hn
    simp [emptyTable, Table.hasCol, Table.col, alookup]
  · refine (c7_sub_analysis_guards tMH1).2.2.2.2.2.2.1 ?_
    left
    simp [tMH1, Table.hasCol, Table.col, alookup]
  · refine (c7_sub_analysis_guards tMH1).2.2.2.2.2.2.2.1 ?_
    simp [tMH1, Table.hasCol, Table.col, alookup]
  · refine (c7_sub_analysis_guards tMH1).2.2.2.2.2.2.2.2 ?_
    simp [tMH1, Table.hasCol, Table.col, alookup]

/-- C7 counterexample: a table with a Timestamp column but no Tamb
column makes the monthly/hourly aggregation fail with a missing-column
error instead of being skipped, so the sub-analysis does abort. -/
theorem c7_missing_column_error_counterexample :
    tMH3.ts.isSome = true ∧ tMH3.hasCol "Tamb" = false ∧
      monthly_hourly_analysis tMH3 = .error "KeyError: columns not found" := by
  refine ⟨rfl, by simp [tMH3, Table.hasCol, Table.col, alookup], ?_⟩
  simp [monthly_hourly_analysis, tMH3, addMonthHour, setCol, monthCol, hourCol,
    reqCols4, Table.hasCol, Table.col, alookup]


/-! ## Claim C8: the wind-rose direction buckets -/

/-- C8 (code bug evidence): `np.arange(0, 360, 30)` yields the twelve
edges 0..330, from which `pd.cut` builds only 11 buckets, not 12; a
direction of 350 degrees (any value in (330, 360]) falls in no bucket
and is dropped from the wind rose, while 0 and 330 land in the first
and last buckets; on a concrete table the per-bucket mean list has 11
entries. -/
theorem c8_wind_rose_has_eleven_buckets :
    windBinCount = 11 ∧ windBinOf 350 = none ∧ windBinOf 0 = some 0 ∧
      windBinOf 330 = some 10 ∧
      windRoseMeans tWind
        = some [some 1, none, none, none, none, none, none, none, none, none, none] := by
  have hrange : List.range windBinCount = [0, 1, 2, 3, 4, 5, 6, 7, 8, 9, 10] := rfl
  refine ⟨rfl, ?_, ?_, ?_, ?_⟩
  · rw [windBinOf, List.find?_eq_none]
    intro i hi
    rw [hrange] at hi
    simp only [List.mem_cons, List.not_mem_nil, or_false] at hi
    rcases hi with rfl | rfl | rfl | rfl | rfl | rfl | rfl | rfl | rfl | rfl | rfl <;>
      norm_num [windRoseEdges, nthD]
  · rw [windBinOf, hrange]
    norm_num [List.find?, windRoseEdges, nthD]
  · rw [windBinOf, hrange]
    norm_num [List.find?, windRoseEdges, nthD]
  · have hb10 : windBinOf 10 = some 0 := by
      rw [windBinOf, hrange]
      norm_num [List.find?, windRoseEdges, nthD]
    have hb350 : windBinOf 350 = none := by
      rw [windBinOf, List.find?_eq_none]
      intro i hi
      rw [hrange] at hi
      simp only [List.mem_cons, List.not_mem_nil, or_false] at hi
      rcases hi with rfl | rfl | rfl | rfl | rfl | rfl | rfl | rfl | rfl | rfl | rfl <;>
        norm_num [windRoseEdges, nthD]
    rw [windRoseMeans]
    norm_num [tWind, Table.hasCol, Table.col, alookup, hrange, hb10, hb350,
      List.filter, meanQ?, nonMissing]
    simp

end Solar
